import Mathlib

/-!
Verification model of the `tmux_bridge` module (the repository's core).
The module itself is not present in the repository snapshot; only its unit
tests (`tests/test_tmux_bridge.py`) and a driving example (`example_agent.py`)
are. All definitions below are therefore modelled from the specification's
description of the module, with the unit tests pinning concrete behaviour.
Terminal text is modelled as `List Char`; the external `tmux` binary is
modelled by explicit environments (capture results per poll, session
predicates, process results).
-/

namespace TmuxBridge

/-- The ASCII escape character that introduces every ANSI control sequence. -/
def ESC : Char := Char.ofNat 27

/-- The ASCII bell character, one of the two OSC-sequence terminators. -/
def BEL : Char := Char.ofNat 7

/-- A CSI final byte (0x40–0x7E) ends a `ESC [ params final` control sequence. -/
def isCSIFinal (c : Char) : Bool := 0x40 ≤ c.toNat && c.toNat ≤ 0x7E

/-- The scanner state of the escape-sequence normalizer: ordinary text, just
after an `ESC`, inside a CSI parameter list, inside an OSC body, or inside an
OSC body just after an `ESC` (a possible `ESC \` terminator). -/
inductive AnsiMode where
  | txt
  | esc
  | csi
  | osc
  | oscEsc
deriving DecidableEq

/-- One-character-at-a-time scanner of the escape-sequence normalizer.
In `txt` mode ordinary characters are kept verbatim; an `ESC` opens a
sequence. `ESC [` starts a CSI sequence, consumed up to its final byte
(numeric/semicolon parameter lists of arbitrary length); `ESC ]` starts an
OSC sequence, consumed up to `BEL` or `ESC \`; any other `ESC x` pair is a
bare two-character escape sequence and is dropped whole. -/
def stripAnsiFrom : AnsiMode → List Char → List Char
  | _, [] => []
  | AnsiMode.txt, c :: rest =>
    if c = ESC then stripAnsiFrom AnsiMode.esc rest
    else c :: stripAnsiFrom AnsiMode.txt rest
  | AnsiMode.esc, c :: rest =>
    if c = '[' then stripAnsiFrom AnsiMode.csi rest
    else if c = ']' then stripAnsiFrom AnsiMode.osc rest
    else stripAnsiFrom AnsiMode.txt rest
  | AnsiMode.csi, c :: rest =>
    if isCSIFinal c then stripAnsiFrom AnsiMode.txt rest
    else stripAnsiFrom AnsiMode.csi rest
  | AnsiMode.osc, c :: rest =>
    if c = BEL then stripAnsiFrom AnsiMode.txt rest
    else if c = ESC then stripAnsiFrom AnsiMode.oscEsc rest
    else stripAnsiFrom AnsiMode.osc rest
  | AnsiMode.oscEsc, c :: rest =>
    if c = '\\' then stripAnsiFrom AnsiMode.txt rest
    else if c = BEL then stripAnsiFrom AnsiMode.txt rest
    else if c = ESC then stripAnsiFrom AnsiMode.oscEsc rest
    else stripAnsiFrom AnsiMode.osc rest

/-- Modelled from the spec: `strip_ansi` (missing module `tmux_bridge.py`),
the escape-sequence normalizer. Removes CSI sequences (`ESC [ … final`),
OSC sequences (`ESC ] … BEL` or `ESC ] … ESC \`) and bare escape-introduced
two-character sequences, preserving every ordinary character verbatim. -/
def strip_ansi (l : List Char) : List Char := stripAnsiFrom AnsiMode.txt l

theorem stripAnsiFrom_no_esc :
    ∀ (l : List Char) (m : AnsiMode), ESC ∉ stripAnsiFrom m l := by
  intro l
  induction l with
  | nil => intro m; cases m <;> simp [stripAnsiFrom]
  | cons c rest ih =>
    intro m
    cases m with
    | txt =>
      by_cases hc : c = ESC
      · simpa [stripAnsiFrom, hc] using ih AnsiMode.esc
      · rw [stripAnsiFrom, if_neg hc]
        simp only [List.mem_cons, not_or]
        exact ⟨fun h => hc h.symm, ih AnsiMode.txt⟩
    | esc =>
      rw [stripAnsiFrom]
      split
      · exact ih AnsiMode.csi
      · split
        · exact ih AnsiMode.osc
        · exact ih AnsiMode.txt
    | csi =>
      rw [stripAnsiFrom]
      split
      · exact ih AnsiMode.txt
      · exact ih AnsiMode.csi
    | osc =>
      rw [stripAnsiFrom]
      split
      · exact ih AnsiMode.txt
      · split
        · exact ih AnsiMode.oscEsc
        · exact ih AnsiMode.osc
    | oscEsc =>
      rw [stripAnsiFrom]
      split
      · exact ih AnsiMode.txt
      · split
        · exact ih AnsiMode.txt
        · split
          · exact ih AnsiMode.oscEsc
          · exact ih AnsiMode.osc

/-- The normalizer's output never contains the escape character. -/
theorem strip_ansi_no_esc (l : List Char) : ESC ∉ strip_ansi l :=
  stripAnsiFrom_no_esc l AnsiMode.txt

/-- Escape-free text is a fixed point of the normalizer. -/
theorem strip_ansi_of_no_esc : ∀ l : List Char, ESC ∉ l → strip_ansi l = l := by
  intro l
  induction l with
  | nil => intro _; rfl
  | cons c rest ih =>
    intro h
    have hc : ¬ c = ESC := fun he => h (he ▸ List.mem_cons_self c rest)
    show stripAnsiFrom AnsiMode.txt (c :: rest) = c :: rest
    rw [stripAnsiFrom, if_neg hc]
    exact congrArg (c :: ·) (ih (fun hm => h (List.mem_cons_of_mem c hm)))

/-- Modelled from the spec: split text into lines at newline characters,
with Python `str.splitlines` semantics — a trailing newline does not
produce a final empty line, and empty text has no lines. -/
def splitLines : List Char → List (List Char)
  | [] => []
  | c :: cs =>
    if c = '\n' then [] :: splitLines cs
    else
      match splitLines cs with
      | [] => [[c]]
      | l :: ls => (c :: l) :: ls

/-- Join lines with a single newline between consecutive lines
(Python `"\n".join`). -/
def joinLines : List (List Char) → List Char
  | [] => []
  | [l] => l
  | l :: ls => l ++ '\n' :: joinLines ls

theorem splitLines_head_prefix :
    ∀ (s : List Char) {l : List Char} {ls : List (List Char)},
      splitLines s = l :: ls → l <+: s := by
  intro s
  induction s with
  | nil => intro l ls h; simp [splitLines] at h
  | cons c cs ih =>
    intro l ls h
    rw [splitLines] at h
    by_cases hc : c = '\n'
    · rw [if_pos hc] at h
      injection h with h1 _
      exact h1 ▸ List.nil_prefix
    · rw [if_neg hc] at h
      cases h2 : splitLines cs with
      | nil =>
        rw [h2] at h
        injection h with h1 _
        exact h1 ▸ List.cons_prefix_cons.mpr ⟨rfl, List.nil_prefix⟩
      | cons l' ls' =>
        rw [h2] at h
        injection h with h1 _
        exact h1 ▸ List.cons_prefix_cons.mpr ⟨rfl, ih h2⟩

theorem mem_splitLines_isInfix :
    ∀ (s : List Char) {l : List Char}, l ∈ splitLines s → l <:+: s := by
  intro s
  induction s with
  | nil => intro l h; simp [splitLines] at h
  | cons c cs ih =>
    intro l h
    rw [splitLines] at h
    by_cases hc : c = '\n'
    · rw [if_pos hc] at h
      rcases List.mem_cons.mp h with h1 | h1
      · exact h1 ▸ ⟨[], c :: cs, rfl⟩
      · exact List.infix_cons (ih h1)
    · rw [if_neg hc] at h
      cases h2 : splitLines cs with
      | nil =>
        rw [h2] at h
        rcases List.mem_cons.mp h with h1 | h1
        · exact h1 ▸ (List.cons_prefix_cons.mpr ⟨rfl, List.nil_prefix⟩).isInfix
        · simp at h1
      | cons l' ls' =>
        rw [h2] at h
        rcases List.mem_cons.mp h with h1 | h1
        · exact h1 ▸ (List.cons_prefix_cons.mpr ⟨rfl, splitLines_head_prefix cs h2⟩).isInfix
        · exact List.infix_cons (ih (h2 ▸ List.mem_cons_of_mem l' h1))

/-- Line-anchored scan (spec: markers must appear "as their own echoed output
lines, not merely substrings of some other line"): index of the first line
equal to the marker. -/
def findLine (marker : List Char) : List (List Char) → Option Nat
  | [] => none
  | l :: ls => if l = marker then some 0 else (findLine marker ls).map (· + 1)

theorem findLine_eq_none {m : List Char} :
    ∀ {ls : List (List Char)}, findLine m ls = none ↔ m ∉ ls := by
  intro ls
  induction ls with
  | nil => simp [findLine]
  | cons l ls ih =>
    by_cases hl : l = m
    · simp [findLine, hl]
    · rw [findLine, if_neg hl]
      simp only [Option.map_eq_none', ih, List.mem_cons, not_or]
      constructor
      · intro h
        exact ⟨fun he => hl he.symm, h⟩
      · intro h
        exact h.2

theorem findLine_of_mem {m : List Char} {ls : List (List Char)} (h : m ∈ ls) :
    ∃ j, findLine m ls = some j := by
  cases hf : findLine m ls with
  | none => exact absurd h (findLine_eq_none.mp hf)
  | some j => exact ⟨j, rfl⟩

/-! ### The marker protocol and the controller (modelled from the spec) -/

/-- The fixed textual template shared by both marker tokens. -/
def markerStub : List Char := "__TMUX_BRIDGE_".toList

/-- Modelled from the spec: the per-invocation marker identifier is the first
12 characters of a freshly generated uuid4 hex digest. -/
def marker_id (hex : List Char) : List Char := hex.take 12

/-- Modelled from the spec and the unit tests: the start sentinel
`__TMUX_BRIDGE_START_<id>__`. -/
def startMarker (uid : List Char) : List Char :=
  "__TMUX_BRIDGE_START_".toList ++ (uid ++ "__".toList)

/-- Modelled from the spec and the unit tests: the end sentinel
`__TMUX_BRIDGE_END_<id>__`. -/
def endMarker (uid : List Char) : List Char :=
  "__TMUX_BRIDGE_END_".toList ++ (uid ++ "__".toList)

/-- Modelled from the spec: the composite line `echo '<start>'; command;
echo '<end>'` submitted through `send_keys` by `execute_and_wait`. -/
def wrapped_command (uid command : List Char) : List Char :=
  "echo '".toList ++ startMarker uid ++ "'; ".toList ++ command ++
    "; echo '".toList ++ endMarker uid ++ "'".toList

/-- Keep a line of the marker-delimited region: drop marker-bearing lines
(the end marker's `echo` line) and the shell's echo of the submitted command
(a line ending with the literal command text). -/
def keepLine (command l : List Char) : Bool :=
  !(decide (markerStub <:+: l)) && !(decide (command <:+ l))

/-- Modelled from the spec: `TmuxController._clean_marker_output` — clean the
text lying between the two marker lines, removing the command's echoed
invocation line and any marker-bearing echo line. -/
def _clean_marker_output (text command : List Char) : List Char :=
  joinLines ((splitLines text).filter (keepLine command))

/-- The failure conditions signalled by the module (source names
`SessionNotFoundError`, `CommandTimeoutError`). -/
inductive BridgeError where
  | SessionNotFoundError
  | CommandTimeoutError
deriving DecidableEq

/-- Outcome of one synchronous invocation of the external `tmux` binary. -/
structure RunResult where
  returncode : Int
  stdout : List Char
  stderr : List Char

/-- Modelled from the spec: `TmuxController.list_sessions` — `[]` whenever the
external tool reports failure (no server), otherwise the newline-split
session names in stdout order. -/
def list_sessions (res : RunResult) : List (List Char) :=
  if res.returncode = 0 then splitLines res.stdout else []

/-- Modelled from the spec: the controller's only durable data — the validated
target identifier (field `_target`, stored verbatim) and the session part of
the name (field `session_name`, the target up to any `:` qualifier). -/
structure TmuxController where
  _target : List Char
  session_name : List Char

/-- Modelled from the spec: the controller constructor — immediately checks
`session_exists` and fails with `SessionNotFoundError` when the transport
reports the target as not live, otherwise records the target verbatim. -/
def TmuxController.init (session_exists : List Char → Bool) (target : List Char) :
    Except BridgeError TmuxController :=
  if session_exists target then
    Except.ok { _target := target, session_name := target.takeWhile (fun c => c ≠ ':') }
  else
    Except.error BridgeError.SessionNotFoundError

/-- One logical key of a transmitted keystroke sequence: either the literal
text payload or the session's line-submit key ("Enter"). -/
inductive Keystroke where
  | literal (text : List Char)
  | enterKey
deriving DecidableEq

/-- Modelled from the spec: `TmuxController.send_keys` — transmit the literal
text and, when `enter` is set (the default), append the line-submit key as a
separate logical key. -/
def send_keys (text : List Char) (enter : Bool) : List Keystroke :=
  [Keystroke.literal text] ++ (if enter then [Keystroke.enterKey] else [])

/-- Modelled from the spec: `TmuxController.read_buffer` — capture the visible
region, normalize escape sequences, and return the last `lines` lines (the
whole normalized buffer when it has fewer lines, or when `lines` is unset). -/
def read_buffer (captured : List Char) (lines : Option Nat) : List Char :=
  let text := strip_ansi captured
  match lines with
  | none => text
  | some n =>
    let ls := splitLines text
    if ls.length < n then text
    else joinLines (ls.drop (ls.length - n))

/-- The environment of one `execute_and_wait` invocation: the fresh uuid4 hex
digest generated for it, the full-history buffer returned by the i-th
`capture-pane` poll, and how many polls fit before the deadline elapses. -/
structure ExecEnv where
  uuidHex : List Char
  captures : Nat → List Char
  maxPolls : Nat

/-- What one `execute_and_wait` invocation did: the composite line it sent,
and the extraction result or the signalled failure. -/
structure ExecOutcome where
  sent : List Char
  result : Except BridgeError (List Char)

/-- The escape-normalized lines of the i-th polled buffer. -/
def normLines (env : ExecEnv) (i : Nat) : List (List Char) :=
  splitLines (strip_ansi (env.captures i))

/-- Modelled from the spec: one poll of `execute_and_wait`. The captured full
history is normalized and scanned for the end marker as its own line; `none`
means "keep polling". On finding the end-marker line, the start marker must
appear as its own line before it — when it does not (scrollback truncation),
the poll fails exactly like a timeout, never guessing a start boundary. On
success the result is the cleaned text strictly between the two marker
lines. -/
def poll_once (uid command buf : List Char) : Option (Except BridgeError (List Char)) :=
  match findLine (endMarker uid) (splitLines (strip_ansi buf)) with
  | none => none
  | some j =>
    match findLine (startMarker uid) ((splitLines (strip_ansi buf)).take j) with
    | none => some (Except.error BridgeError.CommandTimeoutError)
    | some i0 =>
      some (Except.ok (_clean_marker_output
        (joinLines (((splitLines (strip_ansi buf)).take j).drop (i0 + 1))) command))

/-- Modelled from the spec: the poll loop of `execute_and_wait` — poll the
pane repeatedly until a poll settles the call; when the deadline elapses
(`fuel` polls exhausted) signal `CommandTimeoutError`. -/
def poll_loop (uid command : List Char) (captures : Nat → List Char) :
    Nat → Nat → Except BridgeError (List Char)
  | 0, _ => Except.error BridgeError.CommandTimeoutError
  | fuel + 1, i =>
    match poll_once uid command (captures i) with
    | none => poll_loop uid command captures fuel (i + 1)
    | some r => r

/-- Modelled from the spec: `TmuxController.execute_and_wait` — generate the
fresh marker pair from the invocation's uuid, send the wrapped composite
line, then poll until both markers are observed or the deadline elapses. -/
def execute_and_wait (env : ExecEnv) (command : List Char) : ExecOutcome :=
  let uid := marker_id env.uuidHex
  { sent := wrapped_command uid command
    result := poll_loop uid command env.captures env.maxPolls 0 }

/-! ### Occurrences across joined lines -/

theorem prefix_sep {α : Type} {c : α} :
    ∀ (pat a : List α) {b : List α}, c ∉ pat → pat <+: a ++ c :: b → pat <+: a := by
  intro pat
  induction pat with
  | nil => intro a b _ _; exact List.nil_prefix
  | cons p pt ih =>
    intro a b hc hp
    cases a with
    | nil =>
      simp only [List.nil_append] at hp
      have hpc := (List.cons_prefix_cons.mp hp).1
      subst hpc
      exact absurd (List.mem_cons_self p pt) hc
    | cons x a' =>
      rw [List.cons_append] at hp
      obtain ⟨hx, hp'⟩ := List.cons_prefix_cons.mp hp
      have hc' : c ∉ pt := fun h => hc (List.mem_cons_of_mem _ h)
      exact hx ▸ List.cons_prefix_cons.mpr ⟨rfl, ih a' hc' hp'⟩

theorem infix_split {α : Type} {c : α} :
    ∀ (a : List α) {pat b : List α}, c ∉ pat → pat <:+: a ++ c :: b →
      pat <:+: a ∨ pat <:+: b := by
  intro a
  induction a with
  | nil =>
    intro pat b hc h
    simp only [List.nil_append] at h
    rcases List.infix_cons_iff.mp h with h1 | h1
    · cases pat with
      | nil => exact Or.inl (List.infix_refl _)
      | cons p pt =>
        have hpc := (List.cons_prefix_cons.mp h1).1
        subst hpc
        exact absurd (List.mem_cons_self p pt) hc
    · exact Or.inr h1
  | cons x a' ih =>
    intro pat b hc h
    rw [List.cons_append] at h
    rcases List.infix_cons_iff.mp h with h1 | h1
    · exact Or.inl (prefix_sep pat (x :: a') hc h1).isInfix
    · rcases ih hc h1 with h2 | h2
      · exact Or.inl (List.infix_cons h2)
      · exact Or.inr h2

/-- A nonempty, newline-free pattern occurring in joined lines occurs in one
of the lines. -/
theorem isInfix_joinLines {pat : List Char} (hne : pat ≠ []) (hnl : '\n' ∉ pat) :
    ∀ (ls : List (List Char)), pat <:+: joinLines ls → ∃ l ∈ ls, pat <:+: l := by
  intro ls
  induction ls with
  | nil =>
    intro h
    rw [joinLines] at h
    exact absurd (List.infix_nil.mp h) hne
  | cons l ls ih =>
    intro h
    cases ls with
    | nil => exact ⟨l, List.mem_cons_self l [], h⟩
    | cons l2 ls' =>
      rw [show joinLines (l :: l2 :: ls') = l ++ '\n' :: joinLines (l2 :: ls') from rfl] at h
      rcases infix_split l hnl h with h1 | h1
      · exact ⟨l, List.mem_cons_self _ _, h1⟩
      · obtain ⟨l', hl', h2⟩ := ih h1
        exact ⟨l', List.mem_cons_of_mem _ hl', h2⟩

/-! ### Marker and extraction lemmas -/

theorem markerStub_append_start :
    markerStub ++ "START_".toList = "__TMUX_BRIDGE_START_".toList := by decide

theorem markerStub_append_end :
    markerStub ++ "END_".toList = "__TMUX_BRIDGE_END_".toList := by decide

theorem markerStub_isPrefix_startMarker (uid : List Char) : markerStub <+: startMarker uid :=
  ⟨"START_".toList ++ (uid ++ "__".toList), by
    rw [← List.append_assoc, markerStub_append_start]; rfl⟩

theorem markerStub_isPrefix_endMarker (uid : List Char) : markerStub <+: endMarker uid :=
  ⟨"END_".toList ++ (uid ++ "__".toList), by
    rw [← List.append_assoc, markerStub_append_end]; rfl⟩

theorem startMarker_inj {u1 u2 : List Char} (h : startMarker u1 = startMarker u2) :
    u1 = u2 := by
  unfold startMarker at h
  exact List.append_cancel_right (List.append_cancel_left h)

theorem endMarker_inj {u1 u2 : List Char} (h : endMarker u1 = endMarker u2) :
    u1 = u2 := by
  unfold endMarker at h
  exact List.append_cancel_right (List.append_cancel_left h)

/-- The cleaned marker-delimited region never contains the marker template. -/
theorem clean_no_markerStub (text command : List Char) :
    ¬ (markerStub <:+: _clean_marker_output text command) := by
  intro h
  obtain ⟨l, hl, hinf⟩ := isInfix_joinLines (by decide) (by decide) _ h
  have hkeep := (List.mem_filter.mp hl).2
  simp only [keepLine, Bool.and_eq_true, Bool.not_eq_true', decide_eq_false_iff_not] at hkeep
  exact hkeep.1 hinf

/-- The cleaned marker-delimited region never contains either marker token. -/
theorem clean_no_marker (uid text command : List Char) :
    ¬ (startMarker uid <:+: _clean_marker_output text command) ∧
    ¬ (endMarker uid <:+: _clean_marker_output text command) := by
  constructor
  · intro h
    exact clean_no_markerStub text command
      ((markerStub_isPrefix_startMarker uid).isInfix.trans h)
  · intro h
    exact clean_no_markerStub text command
      ((markerStub_isPrefix_endMarker uid).isInfix.trans h)

theorem poll_once_none_of_no_end {uid command buf : List Char}
    (h : endMarker uid ∉ splitLines (strip_ansi buf)) :
    poll_once uid command buf = none := by
  have h0 : findLine (endMarker uid) (splitLines (strip_ansi buf)) = none :=
    findLine_eq_none.mpr h
  simp only [poll_once, h0]

theorem poll_once_timeout_of_no_start {uid command buf : List Char}
    (hend : endMarker uid ∈ splitLines (strip_ansi buf))
    (hstart : startMarker uid ∉ splitLines (strip_ansi buf)) :
    poll_once uid command buf = some (Except.error BridgeError.CommandTimeoutError) := by
  obtain ⟨j0, hj0⟩ := findLine_of_mem hend
  have hs : findLine (startMarker uid) ((splitLines (strip_ansi buf)).take j0) = none := by
    apply findLine_eq_none.mpr
    intro hmem
    exact hstart (List.take_subset j0 _ hmem)
  simp only [poll_once, hj0, hs]

theorem poll_once_ok_clean {uid command buf : List Char} {out : List Char}
    (h : poll_once uid command buf = some (Except.ok out)) :
    ∃ text, out = _clean_marker_output text command := by
  rw [poll_once] at h
  split at h
  · exact absurd h (by simp)
  · split at h
    · exact absurd h (by simp)
    · injection h with h1
      injection h1 with h2
      exact ⟨_, h2.symm⟩

theorem poll_loop_ok_clean (uid command : List Char) (captures : Nat → List Char) :
    ∀ (fuel base : Nat) (out : List Char),
      poll_loop uid command captures fuel base = Except.ok out →
      ∃ text, out = _clean_marker_output text command := by
  intro fuel
  induction fuel with
  | zero => intro base out h; exact absurd h (by simp [poll_loop])
  | succ f ih =>
    intro base out h
    rw [poll_loop] at h
    split at h
    · exact ih (base + 1) out h
    · rename_i r heq
      cases r with
      | error e => exact absurd h (by simp)
      | ok o =>
        injection h with h1
        exact poll_once_ok_clean (h1 ▸ heq)

theorem poll_loop_timeout_of_no_end (uid command : List Char) (captures : Nat → List Char) :
    ∀ (fuel base : Nat),
      (∀ k, k < fuel → endMarker uid ∉ splitLines (strip_ansi (captures (base + k)))) →
      poll_loop uid command captures fuel base =
        Except.error BridgeError.CommandTimeoutError := by
  intro fuel
  induction fuel with
  | zero => intro base _; rfl
  | succ f ih =>
    intro base h
    have h0 : poll_once uid command (captures base) = none := by
      apply poll_once_none_of_no_end
      have := h 0 (Nat.succ_pos f)
      simpa using this
    rw [poll_loop, h0]
    exact ih (base + 1) (fun k hk => by
      have hmem := h (k + 1) (Nat.succ_lt_succ hk)
      have harith : base + (k + 1) = base + 1 + k := by omega
      rwa [harith] at hmem)

theorem poll_loop_timeout_of_no_start (uid command : List Char) (captures : Nat → List Char) :
    ∀ (j fuel base : Nat), j < fuel →
      (∀ k, k < j → endMarker uid ∉ splitLines (strip_ansi (captures (base + k)))) →
      endMarker uid ∈ splitLines (strip_ansi (captures (base + j))) →
      startMarker uid ∉ splitLines (strip_ansi (captures (base + j))) →
      poll_loop uid command captures fuel base =
        Except.error BridgeError.CommandTimeoutError := by
  intro j
  induction j with
  | zero =>
    intro fuel base hj hprev hend hstart
    cases fuel with
    | zero => exact absurd hj (Nat.lt_irrefl 0)
    | succ f =>
      simp only [Nat.add_zero] at hend hstart
      rw [poll_loop, poll_once_timeout_of_no_start hend hstart]
  | succ jp ih =>
    intro fuel base hj hprev hend hstart
    cases fuel with
    | zero => exact absurd hj (Nat.not_lt_zero _)
    | succ f =>
      have h0 : poll_once uid command (captures base) = none := by
        apply poll_once_none_of_no_end
        have := hprev 0 (Nat.succ_pos jp)
        simpa using this
      have harith : base + (jp + 1) = base + 1 + jp := by omega
      rw [poll_loop, h0]
      exact ih f (base + 1) (Nat.lt_of_succ_lt_succ hj)
        (fun k hk => by
          have hmem := hprev (k + 1) (Nat.succ_lt_succ hk)
          have harith2 : base + (k + 1) = base + 1 + k := by omega
          rwa [harith2] at hmem)
        (harith ▸ hend) (harith ▸ hstart)

/-! ### Concrete fixtures (from the unit tests) -/

/-- The full buffer the second poll returns in the end-to-end `ls -la` test. -/
def bufC1 : List Char :=
  ("$ echo '__TMUX_BRIDGE_START_abcdef123456__'\n__TMUX_BRIDGE_START_abcdef123456__\n$ ls -la\ntotal 0\ndrwxr-xr-x  2 user user  40 Jan  1 00:00 .\ndrwxr-xr-x  3 user user  60 Jan  1 00:00 ..\n$ echo '__TMUX_BRIDGE_END_abcdef123456__'\n__TMUX_BRIDGE_END_abcdef123456__\n$\n").toList

/-- The end-to-end environment: first poll sees a prompt-only buffer, later
polls see the complete output with both markers. -/
def envC1 : ExecEnv :=
  { uuidHex := "abcdef123456rest".toList
    captures := fun i => if i = 0 then ("$ \n".toList) else bufC1
    maxPolls := 5 }

/-- The extraction result of the end-to-end `ls -la` scenario. -/
def outC1 : List Char :=
  ("total 0\ndrwxr-xr-x  2 user user  40 Jan  1 00:00 .\ndrwxr-xr-x  3 user user  60 Jan  1 00:00 ..").toList

/-- A timeout environment: every poll sees a prompt-only buffer. -/
def envC2 : ExecEnv :=
  { uuidHex := "abcdef123456rest".toList
    captures := fun _ => "$ \n".toList
    maxPolls := 2 }

/-- A truncated-scrollback environment: the polled buffer has the end-marker
line but the start marker is gone. -/
def envC4 : ExecEnv :=
  { uuidHex := "abcdef123456rest".toList
    captures := fun _ => "$ chatty\n__TMUX_BRIDGE_END_abcdef123456__\n".toList
    maxPolls := 1 }

/-- A minimal environment for the marker-identity claim. -/
def envC10 : ExecEnv :=
  { uuidHex := "0123456789abcdefrest".toList
    captures := fun _ => []
    maxPolls := 0 }

/-! ### The claims -/

/-- C8: the escape-sequence normalizer `strip_ansi` is idempotent — for every
string `s`, `strip_ansi (strip_ansi s) = strip_ansi s`. -/
theorem claim_C8_strip_ansi_idem (s : List Char) :
    strip_ansi (strip_ansi s) = strip_ansi s :=
  strip_ansi_of_no_esc _ (strip_ansi_no_esc s)

/-- C9: for every string containing no escape sequences (no ESC character),
`strip_ansi` is the identity — all ordinary characters, including newlines,
are preserved verbatim — and the empty string maps to the empty string. -/
theorem claim_C9_strip_ansi_id :
    (∀ s : List Char, ESC ∉ s → strip_ansi s = s) ∧ strip_ansi [] = [] :=
  ⟨strip_ansi_of_no_esc, rfl⟩

/-- Witness for C9 at a concrete escape-free multi-line string. -/
theorem claim_C9_witness :
    strip_ansi ("hello\nworld".toList) = "hello\nworld".toList :=
  claim_C9_strip_ansi_id.1 _ (by decide)

/-- C3: controller construction with target `t` succeeds iff the transport
reports `t` live; on success the stored `_target` equals `t` verbatim,
window/pane qualifiers included, and on a non-existent target construction
signals `SessionNotFoundError`. -/
theorem claim_C3_init (session_exists : List Char → Bool) (t : List Char) :
    (session_exists t = true →
      ∃ c, TmuxController.init session_exists t = Except.ok c ∧ c._target = t) ∧
    (session_exists t = false →
      TmuxController.init session_exists t =
        Except.error BridgeError.SessionNotFoundError) := by
  constructor
  · intro h
    exact ⟨{ _target := t, session_name := t.takeWhile (fun c => c ≠ ':') },
      by rw [TmuxController.init, if_pos h], rfl⟩
  · intro h
    rw [TmuxController.init, if_neg (by simp [h])]

/-- Witness for C3: a live `myserver:0.1` target is stored verbatim, and a
dead target raises `SessionNotFoundError`. -/
theorem claim_C3_witness :
    (∃ c, TmuxController.init (fun s => decide (s = "myserver:0.1".toList))
        "myserver:0.1".toList = Except.ok c ∧ c._target = "myserver:0.1".toList) ∧
    TmuxController.init (fun _ => false) "nonexistent".toList =
      Except.error BridgeError.SessionNotFoundError :=
  ⟨(claim_C3_init _ _).1 (by decide), (claim_C3_init _ _).2 rfl⟩

/-- C5: `list_sessions` returns `[]` whenever the external tool reports
failure (no server), and on success the newline-split names in order —
stdout `"session1\nsession2\nsession3\n"` yields exactly those three. -/
theorem claim_C5_list_sessions :
    (∀ res : RunResult, res.returncode ≠ 0 → list_sessions res = []) ∧
    list_sessions ⟨0, "session1\nsession2\nsession3\n".toList, []⟩ =
      ["session1".toList, "session2".toList, "session3".toList] := by
  constructor
  · intro res h
    rw [list_sessions, if_neg h]
  · rfl

/-- Witness for C5 at a failing tool invocation (no server running). -/
theorem claim_C5_witness :
    list_sessions ⟨1, [], "no server running".toList⟩ = [] :=
  claim_C5_list_sessions.1 _ (by decide)

/-- C6: for every captured buffer and positive `n`, `read_buffer` with
`lines = n` returns exactly the last `n` lines of the escape-normalized
buffer in original order (a length-`n` suffix of its lines), the whole
normalized buffer when it has fewer than `n` lines, and the whole normalized
buffer when `lines` is unset. -/
theorem claim_C6_read_buffer (captured : List Char) (n : Nat) (hn : 0 < n) :
    read_buffer captured none = strip_ansi captured ∧
    ((splitLines (strip_ansi captured)).length < n →
      read_buffer captured (some n) = strip_ansi captured) ∧
    (n ≤ (splitLines (strip_ansi captured)).length →
      ∃ tail, tail <:+ splitLines (strip_ansi captured) ∧ tail.length = n ∧
        read_buffer captured (some n) = joinLines tail) := by
  refine ⟨rfl, ?_, ?_⟩
  · intro h
    show (if (splitLines (strip_ansi captured)).length < n then strip_ansi captured
        else joinLines ((splitLines (strip_ansi captured)).drop
          ((splitLines (strip_ansi captured)).length - n))) = strip_ansi captured
    rw [if_pos h]
  · intro h
    refine ⟨(splitLines (strip_ansi captured)).drop
        ((splitLines (strip_ansi captured)).length - n),
      List.drop_suffix _ _, ?_, ?_⟩
    · rw [List.length_drop]
      omega
    · show (if (splitLines (strip_ansi captured)).length < n then strip_ansi captured
          else joinLines ((splitLines (strip_ansi captured)).drop
            ((splitLines (strip_ansi captured)).length - n))) = _
      rw [if_neg (by omega)]

/-- Witness for C6: the 5-line buffer of the unit test, read with
`lines = 2`. -/
theorem claim_C6_witness :
    ∃ tail, tail <:+ splitLines (strip_ansi ("line1\nline2\nline3\nline4\nline5\n".toList)) ∧
      tail.length = 2 ∧
      read_buffer ("line1\nline2\nline3\nline4\nline5\n".toList) (some 2) = joinLines tail :=
  (claim_C6_read_buffer _ 2 (by decide)).2.2 (by decide)

/-- C7: for every text, `send_keys` with the default submit flag includes the
line-submit key as a separate key of the transmitted keystroke sequence, and
`send_keys` with `enter = false` transmits a sequence without it. -/
theorem claim_C7_send_keys (text : List Char) :
    Keystroke.enterKey ∈ send_keys text true ∧
    Keystroke.enterKey ∉ send_keys text false := by
  constructor
  · simp [send_keys]
  · simp [send_keys]

/-- C2: whenever no poll's captured buffer contains the end marker before the
deadline elapses, `execute_and_wait` signals `CommandTimeoutError` — not a
different condition and not a silent empty result. -/
theorem claim_C2_timeout (env : ExecEnv) (command : List Char)
    (h : ∀ i, i < env.maxPolls →
      ¬ (endMarker (marker_id env.uuidHex) <:+: strip_ansi (env.captures i))) :
    (execute_and_wait env command).result =
      Except.error BridgeError.CommandTimeoutError := by
  show poll_loop (marker_id env.uuidHex) command env.captures env.maxPolls 0 = _
  apply poll_loop_timeout_of_no_end
  intro k hk hmem
  rw [Nat.zero_add] at hmem
  exact h k hk (mem_splitLines_isInfix _ hmem)

/-- Witness for C2: two prompt-only polls, then the deadline. -/
theorem claim_C2_witness :
    (execute_and_wait envC2 ("sleep 999".toList)).result =
      Except.error BridgeError.CommandTimeoutError :=
  claim_C2_timeout envC2 _ (by decide)

/-- C4: when the first poll that observes the end marker (as its own echoed
line) does not contain the start marker, `execute_and_wait` fails with the
same condition as a timeout (`CommandTimeoutError`), never returning a result
from a guessed or partial start boundary. -/
theorem claim_C4_no_start (env : ExecEnv) (command : List Char) (i : Nat)
    (hi : i < env.maxPolls)
    (hprev : ∀ k, k < i → endMarker (marker_id env.uuidHex) ∉ normLines env k)
    (hend : endMarker (marker_id env.uuidHex) ∈ normLines env i)
    (hstart : startMarker (marker_id env.uuidHex) ∉ normLines env i) :
    (execute_and_wait env command).result =
      Except.error BridgeError.CommandTimeoutError := by
  show poll_loop (marker_id env.uuidHex) command env.captures env.maxPolls 0 = _
  refine poll_loop_timeout_of_no_start _ _ _ i env.maxPolls 0 hi ?_ ?_ ?_
  · intro k hk hmem
    rw [Nat.zero_add] at hmem
    exact hprev k hk hmem
  · show endMarker _ ∈ splitLines (strip_ansi (env.captures (0 + i)))
    rw [Nat.zero_add]
    exact hend
  · show startMarker _ ∉ splitLines (strip_ansi (env.captures (0 + i)))
    rw [Nat.zero_add]
    exact hstart

/-- Witness for C4: a single poll whose buffer has the end-marker line but no
start marker. -/
theorem claim_C4_witness :
    (execute_and_wait envC4 ("find /".toList)).result =
      Except.error BridgeError.CommandTimeoutError :=
  claim_C4_no_start envC4 _ 0 (by decide)
    (fun k hk => absurd hk (Nat.not_lt_zero k)) (by decide) (by decide)

/-- C1: every successful `execute_and_wait` result contains no occurrence of
either literal marker token, however many times the markers were echoed in
the raw captured buffer; and in the end-to-end `ls -la` scenario the result
contains the command's real output lines (`total 0` and the directory
entries). -/
theorem claim_C1_extraction :
    (∀ (env : ExecEnv) (command out : List Char),
      (execute_and_wait env command).result = Except.ok out →
      ¬ (startMarker (marker_id env.uuidHex) <:+: out) ∧
      ¬ (endMarker (marker_id env.uuidHex) <:+: out)) ∧
    ((execute_and_wait envC1 ("ls -la".toList)).result = Except.ok outC1 ∧
      "total 0".toList <:+: outC1 ∧
      "drwxr-xr-x  2 user user  40 Jan  1 00:00 .".toList <:+: outC1 ∧
      "drwxr-xr-x  3 user user  60 Jan  1 00:00 ..".toList <:+: outC1) := by
  constructor
  · intro env command out h
    obtain ⟨text, rfl⟩ := poll_loop_ok_clean _ _ _ _ _ _ h
    exact clean_no_marker _ _ _
  · exact ⟨by rfl, by decide, by decide, by decide⟩

/-- Witness for C1: the end-to-end result is marker-free. -/
theorem claim_C1_witness :
    ¬ (startMarker (marker_id envC1.uuidHex) <:+: outC1) ∧
    ¬ (endMarker (marker_id envC1.uuidHex) <:+: outC1) :=
  claim_C1_extraction.1 envC1 ("ls -la".toList) outC1 (by rfl)

/-- C10: within one `execute_and_wait` invocation, the start and end markers
embed the same identifier — the first 12 characters of the invocation's
freshly generated uuid4 hex digest — in the fixed templates
`__TMUX_BRIDGE_START_<id>__` and `__TMUX_BRIDGE_END_<id>__`, both appearing
in the sent composite line; distinct per-invocation identifiers give
distinct markers. -/
theorem claim_C10_markers (env : ExecEnv) (command : List Char) :
    startMarker (env.uuidHex.take 12) <:+: (execute_and_wait env command).sent ∧
    endMarker (env.uuidHex.take 12) <:+: (execute_and_wait env command).sent ∧
    startMarker (env.uuidHex.take 12) =
      "__TMUX_BRIDGE_START_".toList ++ (env.uuidHex.take 12 ++ "__".toList) ∧
    endMarker (env.uuidHex.take 12) =
      "__TMUX_BRIDGE_END_".toList ++ (env.uuidHex.take 12 ++ "__".toList) ∧
    (∀ u1 u2 : List Char, startMarker u1 = startMarker u2 → u1 = u2) ∧
    (∀ u1 u2 : List Char, endMarker u1 = endMarker u2 → u1 = u2) := by
  refine ⟨?_, ?_, rfl, rfl, fun _ _ => startMarker_inj, fun _ _ => endMarker_inj⟩
  · show startMarker (env.uuidHex.take 12) <:+:
      wrapped_command (env.uuidHex.take 12) command
    exact ⟨"echo '".toList,
      "'; ".toList ++ command ++ "; echo '".toList ++
        endMarker (env.uuidHex.take 12) ++ "'".toList,
      by simp [wrapped_command, List.append_assoc]⟩
  · show endMarker (env.uuidHex.take 12) <:+:
      wrapped_command (env.uuidHex.take 12) command
    exact ⟨"echo '".toList ++ startMarker (env.uuidHex.take 12) ++ "'; ".toList ++
        command ++ "; echo '".toList,
      "'".toList,
      by simp [wrapped_command, List.append_assoc]⟩

/-- Witness for C10: both markers of the concrete invocation appear in its
sent line with the shared 12-character identifier, and marker equality forces
identifier equality at a concrete instance. -/
theorem claim_C10_witness :
    (startMarker ("0123456789abcdefrest".toList.take 12) <:+:
      (execute_and_wait envC10 ("true".toList)).sent) ∧
    "abcdef123456".toList = "abcdef123456".toList :=
  ⟨(claim_C10_markers envC10 _).1,
   (claim_C10_markers envC10 ("true".toList)).2.2.2.2.1 _ _ rfl⟩

end TmuxBridge
